import Mathlib

/-!
Shallow embedding of the "wer-liefert-was" B2B marketplace scraper
(src/main.py, src/extractors/utils.py, src/extractors/company_parser.py,
src/extractors/product_parser.py, src/outputs/json_exporter.py).

Python strings are modelled as `List Char` (`PyStr`), and the Python string
methods used by the code (`split`, `strip`, `join`, `replace`, `upper`, ...)
are defined below with Python's semantics.  External collaborators that the
spec declares out of scope (the HTTP transport, BeautifulSoup selector
queries, `urllib.parse.urljoin` / `urlencode`, the system clock) are passed in
as explicit function or data parameters; everything downstream of those
boundaries is translated directly from the source.
-/

namespace WLW

/-- Python `str`, modelled as a list of characters. -/
abbrev PyStr := List Char

/-- Whitespace per Python's `str.split` / `str.strip` (ASCII subset). -/
def isWsChar (c : Char) : Bool :=
  c = ' ' || c = '\t' || c = '\n' || c = '\r' || c = '\x0b' || c = '\x0c'

/-- `s.split(sep)` for a one-character separator: splits at every occurrence,
keeping empty segments; always returns at least one segment. -/
def splitOnChar (sep : Char) : PyStr → List PyStr
  | [] => [[]]
  | c :: rest =>
    if c = sep then [] :: splitOnChar sep rest
    else
      match splitOnChar sep rest with
      | [] => [[c]]
      | seg :: segs => (c :: seg) :: segs

/-- Split at every character satisfying `p`, keeping empty segments. -/
def splitPred (p : Char → Bool) : PyStr → List PyStr
  | [] => [[]]
  | c :: rest =>
    if p c then [] :: splitPred p rest
    else
      match splitPred p rest with
      | [] => [[c]]
      | seg :: segs => (c :: seg) :: segs

/-- Python `s.split()` (no argument): split on whitespace runs, dropping
empty segments. -/
def splitWs (s : PyStr) : List PyStr :=
  (splitPred isWsChar s).filter (fun seg => seg ≠ [])

/-- Python `s.lstrip()`. -/
def lstrip (s : PyStr) : PyStr := s.dropWhile (fun c => isWsChar c)

/-- Python `s.rstrip()`. -/
def rstrip : PyStr → PyStr
  | [] => []
  | c :: rest =>
    match rstrip rest with
    | [] => if isWsChar c then [] else [c]
    | r => c :: r

/-- Python `s.strip()`. -/
def pyStrip (s : PyStr) : PyStr := rstrip (lstrip s)

/-- Python `s.strip(chars)` for a one-character strip set, e.g.
`href.strip("/")`. -/
def stripChar (ch : Char) (s : PyStr) : PyStr :=
  ((s.dropWhile (fun c => c = ch)).reverse.dropWhile (fun c => c = ch)).reverse

/-- Python `sep.join(parts)`. -/
def joinWith (sep : PyStr) (parts : List PyStr) : PyStr :=
  List.intercalate sep parts

/-- Python `s.upper()` (ASCII letters, as used for country codes). -/
def pyUpper (s : PyStr) : PyStr := s.map Char.toUpper

/-- `normalize_whitespace` (src/extractors/utils.py:103-107):
`" ".join(text.split()) if text else ""`. -/
def normalize_whitespace (text : PyStr) : PyStr :=
  if text = [] then [] else joinWith [' '] (splitWs text)

/-- Python truthiness of an optional string (`None` and `""` are falsy). -/
def truthy : Option PyStr → Bool
  | none => false
  | some s => s ≠ []

/-- Python `a or b` on optional strings: the second operand is returned
whenever the first is `None` or empty. -/
def pyOr (a b : Option PyStr) : Option PyStr :=
  if truthy a then a else b

/-- `x or None` for a Python string `x`: empty becomes absent. -/
def noneIfEmpty (s : PyStr) : Option PyStr :=
  if s = [] then none else some s

/-- Python `needle in hay` (substring containment). -/
def containsSub (needle hay : PyStr) : Bool :=
  (List.range (hay.length + 1)).any (fun i => needle.isPrefixOf (hay.drop i))

/-- Python `hay.find(needle)`: index of the first occurrence, if any
(`-1` is modelled as `none`). -/
def findSub (needle hay : PyStr) : Option Nat :=
  (List.range (hay.length + 1)).find? (fun i => needle.isPrefixOf (hay.drop i))

/-- Python `s.replace(old, new)` for non-empty `old`: replace all
non-overlapping occurrences, left to right. -/
def pyReplace (old new : PyStr) : PyStr → PyStr
  | [] => []
  | c :: rest =>
    if old ≠ [] ∧ old.isPrefixOf (c :: rest) then
      new ++ pyReplace old new (List.drop (old.length - 1) rest)
    else
      c :: pyReplace old new rest
termination_by s => s.length
decreasing_by
  · simp only [List.length_cons]
    have := List.length_drop (old.length - 1) rest
    omega
  · simp [List.length_cons]

/-- Decimal digit test, Python `token.isdigit()` (ASCII digits). -/
def isDigitChar (c : Char) : Bool := '0' ≤ c && c ≤ '9'

/-- Python `int(token)` for a digit string. -/
def pyStrToNat (s : PyStr) : Nat :=
  s.foldl (fun a c => a * 10 + (c.toNat - 48)) 0

/-- Decimal rendering of a page number, Python `str(page)` inside
`urlencode`. -/
def natToPyStr (n : Nat) : PyStr := (toString n).toList

/-! ## Fetch-with-retry (src/extractors/utils.py:51-98)

The HTTP transport is the black-box collaborator: `transport a` is the
outcome of the `session.get` / `raise_for_status` pair on the attempt with
0-indexed counter `a` — `some body` when the request succeeds with status
< 400, `none` when anything in the request/response cycle raises (network
error, timeout, or an HTTP status ≥ 400 raised by `raise_for_status`; the
status-≥ 400 warning on line 71-77 does not change control flow).  Delays
passed to `time.sleep` are recorded in order; `attempts` counts transport
calls.  The `while attempt <= retries` loop of lines 64-93 is encoded
structurally on the remaining retry budget `retries - attempt`: budget 0
means `attempt >= retries`, where an exception hits the `break` on line 89-90
and the function returns the `""` sentinel (line 98). -/

structure FetchOutcome where
  body : PyStr
  delays : List ℚ
  attempts : Nat
deriving Repr, DecidableEq

/-- One execution of the retry loop of `fetch_page`
(src/extractors/utils.py:64-98), from attempt counter `attempt` with
`remaining = retries - attempt` retries still allowed. -/
def fetchLoop (transport : Nat → Option PyStr) (backoff_factor : ℚ)
    (attempt : Nat) : Nat → FetchOutcome
  | 0 =>
    match transport attempt with
    | some body => { body := body, delays := [], attempts := 1 }
    | none => { body := [], delays := [], attempts := 1 }
  | remaining + 1 =>
    match transport attempt with
    | some body => { body := body, delays := [], attempts := 1 }
    | none =>
      let rest := fetchLoop transport backoff_factor (attempt + 1) remaining
      { body := rest.body,
        delays := backoff_factor * 2 ^ attempt :: rest.delays,
        attempts := rest.attempts + 1 }

/-- `fetch_page` (src/extractors/utils.py:51-98): run the retry loop from
attempt 0 with `retries` additional attempts allowed.  The `timeout` field of
`RetryConfig` is forwarded to the transport and does not appear in the loop
logic. -/
def fetch_page (transport : Nat → Option PyStr) (retries : Nat)
    (backoff_factor : ℚ) : FetchOutcome :=
  fetchLoop transport backoff_factor 0 retries

/-! ## Search-URL builder (src/extractors/utils.py:115-136)

`urljoin` and `urlencode` are `urllib.parse` externals; they are passed in as
function parameters `uj` and `ue`. -/

/-- `build_search_url` (src/extractors/utils.py:115-136). -/
def build_search_url (uj : PyStr → PyStr → PyStr)
    (ue : List (PyStr × PyStr) → PyStr)
    (base_url query mode region language : PyStr) (page : Nat) : PyStr :=
  let mode_segment : PyStr := if mode = "company".toList then "firmen".toList
    else "produkte".toList
  let lang_segment : PyStr := if language = "de".toList then "de".toList
    else "en".toList
  let path : PyStr := '/' :: lang_segment ++ '/' :: mode_segment ++ ['/']
  let params : List (PyStr × PyStr) :=
    [("q".toList, query), ("page".toList, natToPyStr page),
     ("country".toList, region)]
  let full_url := uj base_url path
  full_url ++ '?' :: ue params

/-- The spec's description of `buildSearchUrl` (spec §4.3), written from its
words: mode maps company→firmen / other→produkte, language maps de→de /
other→en, path `/{lang}/{modeSegment}/`, query string the URL-encoding of
`{q, page, country}`, joined with the base URL. -/
def buildSearchUrlSpec (uj : PyStr → PyStr → PyStr)
    (ue : List (PyStr × PyStr) → PyStr)
    (base_url query mode region language : PyStr) (page : Nat) : PyStr :=
  let modeSegment : PyStr :=
    if mode = "company".toList then "firmen".toList else "produkte".toList
  let langSegment : PyStr :=
    if language = "de".toList then "de".toList else "en".toList
  uj base_url ("/".toList ++ langSegment ++ "/".toList ++ modeSegment
      ++ "/".toList)
    ++ "?".toList
    ++ ue [("q".toList, query), ("page".toList, natToPyStr page),
           ("country".toList, region)]

/-! ## Extraction data model (src/extractors/company_parser.py,
src/extractors/product_parser.py)

BeautifulSoup is the black-box HTML engine.  A `Card` records, for one result
card, the outcome of every soup query `parse_company_list` performs on it
(lines 64-117): `none` means the selector chain matched no element (or the
element lacked the attribute), `some t` carries the element's raw text or
attribute value.  `_extract_text` then applies `normalize_whitespace` exactly
as on line 49-50. -/

/-- An `<a>` element as consumed by the parsers: its `href` attribute (if
present) and its `data-id` attribute (if present). -/
structure LinkEl where
  href : Option PyStr
  dataId : Option PyStr
deriving Repr, DecidableEq

/-- Soup-query outcomes for one company result card
(src/extractors/company_parser.py:64-117). -/
structure Card where
  dataId : Option PyStr
  dataCompanyId : Option PyStr
  nameText : Option PyStr
  link : Option LinkEl
  emailHref : Option PyStr
  telHref : Option PyStr
  httpHref : Option PyStr
  addressText : Option PyStr
  employeeText : Option PyStr
  descriptionText : Option PyStr
  logoSrc : Option PyStr
deriving Repr, DecidableEq

/-- `_extract_text` (src/extractors/company_parser.py:49-50):
`normalize_whitespace(element.get_text(strip=True)) if element else ""`. -/
def extract_text : Option PyStr → PyStr
  | none => []
  | some t => normalize_whitespace t

structure CompanyAddress where
  street : Option PyStr
  postal_code : Option PyStr
  city : Option PyStr
  country_code : Option PyStr
  full : Option PyStr
deriving Repr, DecidableEq

structure CompanyContact where
  first_name : Option PyStr
  last_name : Option PyStr
  email : Option PyStr
  role : Option PyStr
deriving Repr, DecidableEq

/-- The dict built by `parse_company_details`
(src/extractors/company_parser.py:281-300). -/
structure CompanyDetails where
  company_id : Option PyStr
  name : Option PyStr
  email : Option PyStr
  phone_number : Option PyStr
  homepage : Option PyStr
  address : CompanyAddress
  employee_count : Option PyStr
  founding_year : Option Nat
  description : Option PyStr
  products : List PyStr
  contacts : List CompanyContact
  certificates : List PyStr
deriving Repr, DecidableEq

/-- The dict built from the `CompanySummary` dataclass
(src/extractors/company_parser.py:28-47, 119-133); `details` is the key
`scrape_company_mode` may add later (src/main.py:186). -/
structure CompanySummary where
  company_id : Option PyStr
  name : Option PyStr
  email : Option PyStr
  phone_number : Option PyStr
  homepage : Option PyStr
  address : Option CompanyAddress
  employee_count : Option PyStr
  founding_year : Option Nat
  description : Option PyStr
  region : Option PyStr
  logo_url : Option PyStr
  details_url : Option PyStr
  details : Option CompanyDetails
deriving Repr, DecidableEq

/-- `href.strip("/").split("-")[-1]`
(src/extractors/company_parser.py:83, product_parser.py:68). -/
def lastDashToken (href : PyStr) : PyStr :=
  ((splitOnChar '-' (stripChar '/' href)).getLast?).getD []

/-- Body of the per-card loop of `parse_company_list`
(src/extractors/company_parser.py:64-133). -/
def parseCard (uj : PyStr → PyStr → PyStr) (base_url : PyStr)
    (card : Card) : CompanySummary :=
  let name := extract_text card.nameText
  let cid0 := pyOr card.dataId card.dataCompanyId
  let linkInfo : Option PyStr × Option PyStr :=
    match card.link with
    | none => (cid0, none)
    | some link =>
      match link.href with
      | none => (cid0, none)
      | some href =>
        let durl := uj base_url href
        let cid := if truthy cid0 then cid0
          else pyOr link.dataId (some (lastDashToken href))
        (cid, some durl)
  let email := match card.emailHref with
    | none => []
    | some h => pyStrip (pyReplace "mailto:".toList [] h)
  let phone := match card.telHref with
    | none => []
    | some h => pyStrip (pyReplace "tel:".toList [] h)
  let homepage := match card.httpHref with
    | none => []
    | some h => pyStrip h
  let address_full := extract_text card.addressText
  { company_id := linkInfo.1,
    name := noneIfEmpty name,
    email := noneIfEmpty email,
    phone_number := noneIfEmpty phone,
    homepage := noneIfEmpty homepage,
    address := some { street := none, postal_code := none, city := none,
                      country_code := none, full := some address_full },
    employee_count := card.employeeText.map normalize_whitespace,
    founding_year := none,
    description := noneIfEmpty (extract_text card.descriptionText),
    region := none,
    logo_url := card.logoSrc,
    details_url := linkInfo.2,
    details := none }

/-- `parse_company_list` (src/extractors/company_parser.py:52-135), given the
cards the soup's card selectors located on the page. -/
def parse_company_list (uj : PyStr → PyStr → PyStr) (base_url : PyStr)
    (cards : List Card) : List CompanySummary :=
  cards.map (parseCard uj base_url)

/-- The comma parts of the address heuristic
(src/extractors/company_parser.py:189):
`[p.strip() for p in address_full.split(",") if p.strip()]`. -/
def addressParts (address_full : PyStr) : List PyStr :=
  ((splitOnChar ',' address_full).map pyStrip).filter (fun p => p ≠ [])

/-- The address breakdown of `parse_company_details`
(src/extractors/company_parser.py:181-207): `street`, `postal_code`, `city`,
`country_code` start as `None` and are filled only when `address_full` is
truthy; `full` is `address_full or None`. -/
def parseAddressHeuristic (address_full : PyStr) : CompanyAddress :=
  if address_full = [] then
    { street := none, postal_code := none, city := none, country_code := none,
      full := none }
  else
    let parts := addressParts address_full
    let pcCity : Option PyStr × Option PyStr :=
      if 2 ≤ parts.length then
        match splitWs (parts.getD 1 []) with
        | [] => (none, none)
        | t :: rest => (some t, noneIfEmpty (joinWith [' '] rest))
      else (none, none)
    let country : Option PyStr :=
      if 3 ≤ parts.length then
        (splitWs (parts.getLast?.getD [])).getLast?.map pyUpper
      else none
    { street := parts.head?,
      postal_code := pcCity.1,
      city := pcCity.2,
      country_code := country,
      full := some address_full }

/-- The address breakdown exactly as the claim words it (C4): "the text is
split on commas into trimmed parts" — without the source's `if p.strip()`
filter that drops parts that are empty after trimming; all later indexing is
as in the claim ("parts[0]", "parts[1]", "the last part"). -/
def addressClaimLiteral (address_full : PyStr) : CompanyAddress :=
  if address_full = [] then
    { street := none, postal_code := none, city := none, country_code := none,
      full := none }
  else
    let parts := (splitOnChar ',' address_full).map pyStrip
    let pcCity : Option PyStr × Option PyStr :=
      if 2 ≤ parts.length then
        match splitWs (parts.getD 1 []) with
        | [] => (none, none)
        | t :: rest => (some t, noneIfEmpty (joinWith [' '] rest))
      else (none, none)
    let country : Option PyStr :=
      if 3 ≤ parts.length then
        (splitWs (parts.getLast?.getD [])).getLast?.map pyUpper
      else none
    { street := parts.head?,
      postal_code := pcCity.1,
      city := pcCity.2,
      country_code := country,
      full := some address_full }

/-- The contact name split of `parse_company_details`
(src/extractors/company_parser.py:239-248): returns
`(first_name, last_name)`. -/
def splitContactName (full_name : PyStr) : Option PyStr × Option PyStr :=
  if full_name = [] then (none, none)
  else
    let tokens := splitWs full_name
    if 2 ≤ tokens.length then
      (some (tokens.headD []), some (joinWith [' '] (tokens.drop 1)))
    else (some full_name, none)

/-- Soup-query outcomes for one contact block
(src/extractors/company_parser.py:233-252). -/
structure ContactBlock where
  nameText : Option PyStr
  roleText : Option PyStr
  mailHref : Option PyStr
deriving Repr, DecidableEq

/-- Soup-query outcomes for a company detail page
(src/extractors/company_parser.py:137-279).  `factsText` is the raw
`parent.get_text(" ")` of the located facts node (line 213-217), when the
marker search succeeds; `certItems` the raw texts of the `<li>` items under
the certificates anchor (line 264-271), when that anchor exists;
`productItems` the raw texts of the matched product items (line 274-279). -/
structure DetailPage where
  nameText : Option PyStr
  descriptionText : Option PyStr
  emailHref : Option PyStr
  telHref : Option PyStr
  httpHref : Option PyStr
  addressText : Option PyStr
  factsText : Option PyStr
  contactBlocks : List ContactBlock
  certItems : Option (List PyStr)
  productItems : List PyStr
deriving Repr, DecidableEq

/-- Body of the contacts loop of `parse_company_details`
(src/extractors/company_parser.py:234-260). -/
def parseContactBlock (block : ContactBlock) : CompanyContact :=
  let fl := splitContactName (extract_text block.nameText)
  { first_name := fl.1,
    last_name := fl.2,
    email := block.mailHref.map (fun h => pyStrip (pyReplace "mailto:".toList [] h)),
    role := noneIfEmpty (extract_text block.roleText) }

/-- `parse_company_details` (src/extractors/company_parser.py:137-302). -/
def parse_company_details (page : DetailPage) (company_id : Option PyStr) :
    CompanyDetails :=
  let email := match page.emailHref with
    | none => []
    | some h => pyStrip (pyReplace "mailto:".toList [] h)
  let phone := match page.telHref with
    | none => []
    | some h => pyStrip (pyReplace "tel:".toList [] h)
  let homepage := match page.httpHref with
    | none => []
    | some h => pyStrip h
  let facts : Option Nat × Option PyStr :=
    match page.factsText with
    | none => (none, none)
    | some raw =>
      let text_block := normalize_whitespace raw
      let fy : Option Nat :=
        if containsSub "Gründungsjahr".toList text_block then
          ((splitWs text_block).find?
            (fun t => t.all (fun c => isDigitChar c) && t.length = 4)).map
            pyStrToNat
        else none
      let ec : Option PyStr :=
        if containsSub "Mitarbeiter".toList text_block then
          match findSub "Mitarbeiter".toList text_block with
          | none => none
          | some i => some (pyStrip (text_block.drop i))
        else none
      (fy, ec)
  let certificates : List PyStr :=
    match page.certItems with
    | none => []
    | some items => (items.map normalize_whitespace).filter (fun t => t ≠ [])
  { company_id := company_id,
    name := noneIfEmpty (extract_text page.nameText),
    email := noneIfEmpty email,
    phone_number := noneIfEmpty phone,
    homepage := noneIfEmpty homepage,
    address := parseAddressHeuristic (extract_text page.addressText),
    employee_count := facts.2,
    founding_year := facts.1,
    description := noneIfEmpty (extract_text page.descriptionText),
    products := (page.productItems.map normalize_whitespace).filter
      (fun t => t ≠ []),
    contacts := page.contactBlocks.map parseContactBlock,
    certificates := certificates }

/-- Soup-query outcomes for one product result card
(src/extractors/product_parser.py:40-77). -/
structure ProductCard where
  nameText : Option PyStr
  productLinkHref : Option PyStr
  companyNameText : Option PyStr
  companyLink : Option LinkEl
  descriptionText : Option PyStr
  regionText : Option PyStr
deriving Repr, DecidableEq

structure ProductSummary where
  name : Option PyStr
  company_name : Option PyStr
  company_id : Option PyStr
  product_url : Option PyStr
  company_url : Option PyStr
  region : Option PyStr
  description : Option PyStr
deriving Repr, DecidableEq

/-- Body of the per-card loop of `parse_product_list`
(src/extractors/product_parser.py:40-88). -/
def parseProductCard (uj : PyStr → PyStr → PyStr) (base_url : PyStr)
    (card : ProductCard) : ProductSummary :=
  let companyInfo : Option PyStr × Option PyStr :=
    match card.companyLink with
    | none => (none, none)
    | some link =>
      match link.href with
      | none => (none, none)
      | some href =>
        (some (uj base_url href), pyOr link.dataId (some (lastDashToken href)))
  { name := noneIfEmpty (extract_text card.nameText),
    company_name := noneIfEmpty (extract_text card.companyNameText),
    company_id := companyInfo.2,
    product_url := card.productLinkHref.map (uj base_url),
    company_url := companyInfo.1,
    region := noneIfEmpty (extract_text card.regionText),
    description := noneIfEmpty (extract_text card.descriptionText) }

/-- `parse_product_list` (src/extractors/product_parser.py:29-90). -/
def parse_product_list (uj : PyStr → PyStr → PyStr) (base_url : PyStr)
    (cards : List ProductCard) : List ProductSummary :=
  cards.map (parseProductCard uj base_url)

/-! ## Crawl orchestrator (src/main.py:142-238)

The per-page loop shared by `scrape_company_mode` (lines 154-196) and
`scrape_product_mode` (lines 209-238).  A `PageSource` packages the two
black-box-backed steps: `fetch page` is `fetch_page(session, search_url)` for
that page number, `extract html` is the parser applied to the page body.
`enrich` is the company-mode details pass over the page's records (identity
in product mode).  The unbounded `while True` loop is given explicit `fuel`;
`none` means the fuel ran out before one of the three source-level
termination conditions fired. -/

structure PageSource (α : Type) where
  fetch : Nat → PyStr
  extract : PyStr → List α

/-- The `while True` loop of src/main.py:154-196 / 209-238: check fetch
failure, check empty extraction, enrich, accumulate, check the `max_pages`
bound (`if max_pages and max_pages > 0 and page >= max_pages`), advance. -/
def crawlLoop {α : Type} (src : PageSource α) (enrich : List α → List α)
    (max_pages : Int) : Nat → Nat → List α → Option (List α)
  | 0, _, _ => none
  | fuel + 1, page, acc =>
    let html := src.fetch page
    if html = [] then some acc
    else
      let recs := src.extract html
      if recs.isEmpty then some acc
      else
        let acc2 := acc ++ enrich recs
        if max_pages ≠ 0 ∧ 0 < max_pages ∧ max_pages ≤ (page : Int) then
          some acc2
        else crawlLoop src enrich max_pages fuel (page + 1) acc2

/-- `details_url` handling for one company in the details pass
(src/main.py:176-186): skip when `details_url` is absent or empty, skip when
the detail fetch returns the empty sentinel, otherwise parse the detail HTML
and set the `details` key.  `fetchUrl` is `fetch_page(session, ·)`,
`parseDetailsHtml` is `parse_company_details` composed with the soup. -/
def attach_details (fetchUrl : PyStr → PyStr)
    (parseDetailsHtml : PyStr → Option PyStr → CompanyDetails)
    (c : CompanySummary) : CompanySummary :=
  match c.details_url with
  | none => c
  | some url =>
    if url = [] then c
    else
      let details_html := fetchUrl url
      if details_html = [] then c
      else { c with details := some (parseDetailsHtml details_html c.company_id) }

/-- The `if include_details: for company in companies_on_page: ...` pass
(src/main.py:175-186). -/
def enrich_page (fetchUrl : PyStr → PyStr)
    (parseDetailsHtml : PyStr → Option PyStr → CompanyDetails)
    (include_details : Bool) (companies : List CompanySummary) :
    List CompanySummary :=
  if include_details then companies.map (attach_details fetchUrl parseDetailsHtml)
  else companies

/-- `scrape_company_mode` (src/main.py:142-196).  `htmlCards` and
`htmlDetail` are the BeautifulSoup boundary (HTML text to query outcomes). -/
def scrape_company_mode (uj : PyStr → PyStr → PyStr)
    (ue : List (PyStr × PyStr) → PyStr) (htmlCards : PyStr → List Card)
    (htmlDetail : PyStr → DetailPage) (fetchUrl : PyStr → PyStr)
    (base_url query region language : PyStr) (max_pages : Int)
    (include_details : Bool) (fuel : Nat) : Option (List CompanySummary) :=
  crawlLoop
    { fetch := fun page => fetchUrl (build_search_url uj ue base_url query
        "company".toList region language page),
      extract := fun html => parse_company_list uj base_url (htmlCards html) }
    (enrich_page fetchUrl (fun h cid => parse_company_details (htmlDetail h) cid)
      include_details)
    max_pages fuel 1 []

/-- `scrape_product_mode` (src/main.py:198-238). -/
def scrape_product_mode (uj : PyStr → PyStr → PyStr)
    (ue : List (PyStr × PyStr) → PyStr) (htmlCards : PyStr → List ProductCard)
    (fetchUrl : PyStr → PyStr) (base_url query region language : PyStr)
    (max_pages : Int) (fuel : Nat) : Option (List ProductSummary) :=
  crawlLoop
    { fetch := fun page => fetchUrl (build_search_url uj ue base_url query
        "product".toList region language page),
      extract := fun html => parse_product_list uj base_url (htmlCards html) }
    (fun recs => recs)
    max_pages fuel 1 []

/-! ## Exporter (src/outputs/json_exporter.py:15-32)

The timestamp string produced by `datetime.utcnow().isoformat()` is an
external (the system clock); it is passed in as `now_iso`. -/

structure ExportMeta where
  exported_at : PyStr
  record_count : Nat
deriving Repr, DecidableEq

structure ExportPayload (α : Type) where
  meta : ExportMeta
  data : List α
deriving Repr, DecidableEq

/-- The payload built by `export_to_json` (src/outputs/json_exporter.py:20-27)
before serialization: records are materialized with `list(records)`, the
metadata holds `datetime.utcnow().isoformat() + "Z"` and `len(records_list)`. -/
def export_payload {α : Type} (now_iso : PyStr) (records : List α) :
    ExportPayload α :=
  { meta := { exported_at := now_iso ++ "Z".toList,
              record_count := records.length },
    data := records }

end WLW

namespace WLW

/-- C8 example instantiation of `urljoin`: plain concatenation. -/
def ujConcat (base path : PyStr) : PyStr := base ++ path

/-- C8 example instantiation of `urlencode`: `k=v` pairs joined by `&`
(no percent-escaping; enough to exercise the URL structure). -/
def ueSimple (params : List (PyStr × PyStr)) : PyStr :=
  joinWith "&".toList (params.map (fun kv => kv.1 ++ "=".toList ++ kv.2))

/-- C1 scenario page source: page 1 yields two records, every later page
yields non-empty HTML on which extraction finds zero cards. -/
def srcScenario : PageSource Nat :=
  { fetch := fun page => if page = 1 then "page-one".toList
      else "page-two".toList,
    extract := fun html => if html = "page-one".toList then [10, 20] else [] }

/-- A company card none of whose per-field selector chains matched. -/
def emptyCard : Card :=
  { dataId := none, dataCompanyId := none, nameText := none, link := none,
    emailHref := none, telHref := none, httpHref := none, addressText := none,
    employeeText := none, descriptionText := none, logoSrc := none }

/-- C5 example card: no data attributes anywhere, details link with href
`/firmen/acme-gmbh-4711`. -/
def cardAcme : Card :=
  { emptyCard with
    link := some { href := some "/firmen/acme-gmbh-4711".toList,
                   dataId := none } }

/-- A detail page none of whose selector chains matched. -/
def emptyDetailPage : DetailPage :=
  { nameText := none, descriptionText := none, emailHref := none,
    telHref := none, httpHref := none, addressText := none, factsText := none,
    contactBlocks := [], certItems := none, productItems := [] }

/-- A concrete company summary with a details URL, for witnesses. -/
def summaryA : CompanySummary :=
  { company_id := some "4711".toList, name := some "Acme".toList,
    email := none, phone_number := none, homepage := none, address := none,
    employee_count := none, founding_year := none, description := none,
    region := none, logo_url := none,
    details_url := some "https://www.wlw.de/firmen/acme-gmbh-4711".toList,
    details := none }

end WLW

namespace WLW

/-! ## Helper lemmas -/

/-- The number of transport calls never exceeds the remaining budget + 1. -/
theorem fetchLoop_attempts_le (transport : Nat → Option PyStr) (bf : ℚ) :
    ∀ (remaining attempt : Nat),
      (fetchLoop transport bf attempt remaining).attempts ≤ remaining + 1 := by
  intro remaining
  induction remaining with
  | zero =>
    intro attempt
    cases h : transport attempt <;> simp [fetchLoop, h]
  | succ n ih =>
    intro attempt
    cases h : transport attempt with
    | none =>
      have := ih (attempt + 1)
      simp only [fetchLoop, h]
      omega
    | some body => simp [fetchLoop, h]

/-- Each recorded delay follows the exponential-backoff formula, relative to
the starting attempt counter. -/
theorem fetchLoop_delay_formula (transport : Nat → Option PyStr) (bf : ℚ) :
    ∀ (remaining attempt i : Nat) (x : ℚ),
      (fetchLoop transport bf attempt remaining).delays[i]? = some x →
      x = bf * 2 ^ (attempt + i) := by
  intro remaining
  induction remaining with
  | zero =>
    intro attempt i x h
    cases htr : transport attempt <;> simp [fetchLoop, htr] at h
  | succ n ih =>
    intro attempt i x h
    cases htr : transport attempt with
    | none =>
      simp only [fetchLoop, htr] at h
      cases i with
      | zero =>
        simp only [List.getElem?_cons_zero, Option.some.injEq] at h
        simpa using h.symm
      | succ j =>
        simp only [List.getElem?_cons_succ] at h
        have := ih (attempt + 1) j x h
        have harith : attempt + 1 + j = attempt + (j + 1) := by omega
        rw [this, harith]
    | some body => simp [fetchLoop, htr] at h

/-- If the transport succeeds at some attempt within the budget and fails
before it, the loop returns that attempt's body. -/
theorem fetchLoop_success (transport : Nat → Option PyStr) (bf : ℚ) :
    ∀ (remaining attempt i : Nat) (b : PyStr),
      attempt ≤ i → i ≤ attempt + remaining →
      (∀ j, attempt ≤ j → j < i → transport j = none) →
      transport i = some b →
      (fetchLoop transport bf attempt remaining).body = b := by
  intro remaining
  induction remaining with
  | zero =>
    intro attempt i b hle hub _hfail hsucc
    have : i = attempt := by omega
    subst this
    simp [fetchLoop, hsucc]
  | succ n ih =>
    intro attempt i b hle hub hfail hsucc
    by_cases hi : i = attempt
    · subst hi
      simp [fetchLoop, hsucc]
    · have hlt : attempt < i := by omega
      have hnone : transport attempt = none := hfail attempt le_rfl hlt
      simp only [fetchLoop, hnone]
      exact ih (attempt + 1) i b (by omega) (by omega)
        (fun j hj1 hj2 => hfail j (by omega) hj2) hsucc

/-- If every attempt within the budget fails, the loop returns the empty
sentinel after exactly `remaining + 1` transport calls. -/
theorem fetchLoop_exhaust (transport : Nat → Option PyStr) (bf : ℚ) :
    ∀ (remaining attempt : Nat),
      (∀ j, attempt ≤ j → j ≤ attempt + remaining → transport j = none) →
      (fetchLoop transport bf attempt remaining).body = []
      ∧ (fetchLoop transport bf attempt remaining).attempts = remaining + 1 := by
  intro remaining
  induction remaining with
  | zero =>
    intro attempt hfail
    have h := hfail attempt le_rfl (by omega)
    simp [fetchLoop, h]
  | succ n ih =>
    intro attempt hfail
    have h := hfail attempt le_rfl (by omega)
    have := ih (attempt + 1) (fun j hj1 hj2 => hfail j (by omega) (by omega))
    simp only [fetchLoop, h]
    exact ⟨this.1, by omega⟩

/-- Fetch failure stops the loop, keeping the accumulated records
(src/main.py:166-168, 221-223). -/
theorem crawlLoop_fetch_empty {α : Type} (src : PageSource α)
    (enrich : List α → List α) (mp : Int) (fuel page : Nat) (acc : List α)
    (h : src.fetch page = []) :
    crawlLoop src enrich mp (fuel + 1) page acc = some acc := by
  simp [crawlLoop, h]

/-- Zero extracted records stop the loop, keeping the accumulated records
(src/main.py:170-173, 225-228). -/
theorem crawlLoop_extract_empty {α : Type} (src : PageSource α)
    (enrich : List α → List α) (mp : Int) (fuel page : Nat) (acc : List α)
    (hf : src.fetch page ≠ []) (he : src.extract (src.fetch page) = []) :
    crawlLoop src enrich mp (fuel + 1) page acc = some acc := by
  simp [crawlLoop, hf, he, List.isEmpty_iff]

/-- On a productive page the iteration accumulates the enriched records and
either stops at the `max_pages` bound or continues with `page + 1`
(src/main.py:175-194, 230-236). -/
theorem crawlLoop_productive {α : Type} (src : PageSource α)
    (enrich : List α → List α) (mp : Int) (fuel page : Nat) (acc : List α)
    (hf : src.fetch page ≠ []) (he : src.extract (src.fetch page) ≠ []) :
    crawlLoop src enrich mp (fuel + 1) page acc =
      if mp ≠ 0 ∧ 0 < mp ∧ mp ≤ (page : Int) then
        some (acc ++ enrich (src.extract (src.fetch page)))
      else
        crawlLoop src enrich mp fuel (page + 1)
          (acc ++ enrich (src.extract (src.fetch page))) := by
  have he' : (src.extract (src.fetch page)).isEmpty = false := by
    simpa [List.isEmpty_iff] using he
  simp only [crawlLoop, if_neg hf, he', Bool.false_eq_true, if_false]

/-- `splitPred` always yields at least one segment. -/
theorem splitPred_ne_nil (p : Char → Bool) (s : PyStr) :
    splitPred p s ≠ [] := by
  induction s with
  | nil => simp [splitPred]
  | cons c rest ih =>
    simp only [splitPred]
    cases hpc : p c with
    | true => simp
    | false =>
      simp only [Bool.false_eq_true, if_false]
      cases hs : splitPred p rest <;> simp

/-- When the first character is not a separator, the first segment starts
with it. -/
theorem splitPred_cons_of_neg (p : Char → Bool) (c : Char) (rest : PyStr)
    (h : p c = false) :
    ∃ seg segs, splitPred p (c :: rest) = (c :: seg) :: segs := by
  simp only [splitPred, h, Bool.false_eq_true, if_false]
  cases hs : splitPred p rest with
  | nil => exact ⟨[], [], rfl⟩
  | cons seg segs => exact ⟨seg, segs, rfl⟩

/-- A string starting with a non-whitespace character has at least one
whitespace-split token. -/
theorem splitWs_cons_ne_nil (c : Char) (t : PyStr) (h : isWsChar c = false) :
    splitWs (c :: t) ≠ [] := by
  obtain ⟨seg, segs, hst⟩ := splitPred_cons_of_neg isWsChar c t h
  simp [splitWs, hst, List.filter_cons]

/-- A non-empty `lstrip` result starts with a non-whitespace character. -/
theorem lstrip_head (s : PyStr) (h : lstrip s ≠ []) :
    ∃ c t, lstrip s = c :: t ∧ isWsChar c = false := by
  induction s with
  | nil => simp [lstrip] at h
  | cons c rest ih =>
    cases hc : isWsChar c with
    | true =>
      have hrw : lstrip (c :: rest) = lstrip rest := by
        simp [lstrip, List.dropWhile_cons, hc]
      rw [hrw] at h ⊢
      exact ih h
    | false =>
      refine ⟨c, rest, ?_, hc⟩
      simp [lstrip, List.dropWhile_cons, hc]

/-- A non-empty `rstrip` result keeps the original head. -/
theorem rstrip_head (l : PyStr) (h : rstrip l ≠ []) :
    (rstrip l).head? = l.head? := by
  cases l with
  | nil => simp [rstrip] at h
  | cons c rest =>
    simp only [rstrip] at h ⊢
    cases hr : rstrip rest with
    | nil =>
      simp only [hr] at h ⊢
      cases hc : isWsChar c with
      | true => simp [hc] at h
      | false => simp [hc]
    | cons d ds => simp [hr]

/-- A non-empty `strip` result starts with a non-whitespace character. -/
theorem pyStrip_head (s : PyStr) (h : pyStrip s ≠ []) :
    ∃ c t, pyStrip s = c :: t ∧ isWsChar c = false := by
  have h2 : rstrip (lstrip s) ≠ [] := h
  have hl : lstrip s ≠ [] := by
    intro he
    rw [pyStrip, he] at h
    simp [rstrip] at h
  obtain ⟨c, t, hct, hcw⟩ := lstrip_head s hl
  have hhd : (pyStrip s).head? = some c := by
    rw [pyStrip, rstrip_head (lstrip s) h2, hct]
    rfl
  cases hps : pyStrip s with
  | nil => exact absurd hps h
  | cons d ds =>
    rw [hps] at hhd
    simp only [List.head?_cons, Option.some.injEq] at hhd
    exact ⟨d, ds, rfl, hhd ▸ hcw⟩

/-- A non-empty stripped string has at least one whitespace-split token
(the reason `parts[-1].split()[-1]` on line 199 of
src/extractors/company_parser.py can never raise). -/
theorem splitWs_pyStrip_ne_nil (s : PyStr) (h : pyStrip s ≠ []) :
    splitWs (pyStrip s) ≠ [] := by
  obtain ⟨c, t, hct, hcw⟩ := pyStrip_head s h
  rw [hct]
  exact splitWs_cons_ne_nil c t hcw

/-- Every comma part kept by the address heuristic whitespace-splits into a
non-empty token list. -/
theorem addressParts_splitWs_ne_nil (s p : PyStr) (hp : p ∈ addressParts s) :
    splitWs p ≠ [] := by
  simp only [addressParts, List.mem_filter, List.mem_map] at hp
  obtain ⟨⟨q, _hq, hpq⟩, hne⟩ := hp
  subst hpq
  exact splitWs_pyStrip_ne_nil q (by simpa using hne)

/-- A non-empty list has a last element. -/
theorem getLast?_of_ne_nil {α : Type} (l : List α) (h : l ≠ []) :
    ∃ x, l.getLast? = some x := by
  cases l with
  | nil => exact absurd rfl h
  | cons a as => exact ⟨(a :: as).getLast (by simp), List.getLast?_eq_getLast _ _⟩

end WLW

open WLW

/-- **C1.** Both crawl modes run the same loop starting at page 1 (first two
conjuncts), the loop increments the page counter by 1 per iteration and stops
under the first applicable condition checked in source order: (a) the fetch
returns the empty sentinel — stop keeping the accumulated records; (b)
extraction yields zero records — stop likewise; (c) `max_pages` positive and
current page ≥ `max_pages` — stop after accumulating the current page's
records; otherwise (in particular whenever `max_pages = 0`) continue at
`page + 1` with the page's records appended, so the result is the
concatenation of the processed pages' records in page order.  In particular
a source yielding cards on page 1 and non-empty card-less HTML on page 2,
with `max_pages = 0`, terminates after page 2 with exactly page 1's
records. -/
theorem C1_crawl_pagination :
    (∀ (uj : PyStr → PyStr → PyStr) (ue : List (PyStr × PyStr) → PyStr)
        (htmlCards : PyStr → List Card) (htmlDetail : PyStr → DetailPage)
        (fetchUrl : PyStr → PyStr) (base_url query region language : PyStr)
        (mp : Int) (incl : Bool) (fuel : Nat),
      scrape_company_mode uj ue htmlCards htmlDetail fetchUrl base_url query
          region language mp incl fuel
        = crawlLoop
            { fetch := fun page => fetchUrl (build_search_url uj ue base_url
                query "company".toList region language page),
              extract := fun html =>
                parse_company_list uj base_url (htmlCards html) }
            (enrich_page fetchUrl
              (fun h cid => parse_company_details (htmlDetail h) cid) incl)
            mp fuel 1 [])
    ∧ (∀ (uj : PyStr → PyStr → PyStr) (ue : List (PyStr × PyStr) → PyStr)
        (htmlCards : PyStr → List ProductCard) (fetchUrl : PyStr → PyStr)
        (base_url query region language : PyStr) (mp : Int) (fuel : Nat),
      scrape_product_mode uj ue htmlCards fetchUrl base_url query region
          language mp fuel
        = crawlLoop
            { fetch := fun page => fetchUrl (build_search_url uj ue base_url
                query "product".toList region language page),
              extract := fun html =>
                parse_product_list uj base_url (htmlCards html) }
            (fun recs => recs) mp fuel 1 [])
    ∧ (∀ (α : Type) (src : PageSource α) (enrich : List α → List α) (mp : Int)
        (fuel page : Nat) (acc : List α), src.fetch page = [] →
        crawlLoop src enrich mp (fuel + 1) page acc = some acc)
    ∧ (∀ (α : Type) (src : PageSource α) (enrich : List α → List α) (mp : Int)
        (fuel page : Nat) (acc : List α), src.fetch page ≠ [] →
        src.extract (src.fetch page) = [] →
        crawlLoop src enrich mp (fuel + 1) page acc = some acc)
    ∧ (∀ (α : Type) (src : PageSource α) (enrich : List α → List α) (mp : Int)
        (fuel page : Nat) (acc : List α), src.fetch page ≠ [] →
        src.extract (src.fetch page) ≠ [] → 0 < mp → mp ≤ (page : Int) →
        crawlLoop src enrich mp (fuel + 1) page acc
          = some (acc ++ enrich (src.extract (src.fetch page))))
    ∧ (∀ (α : Type) (src : PageSource α) (enrich : List α → List α) (mp : Int)
        (fuel page : Nat) (acc : List α), src.fetch page ≠ [] →
        src.extract (src.fetch page) ≠ [] → ¬(0 < mp ∧ mp ≤ (page : Int)) →
        crawlLoop src enrich mp (fuel + 1) page acc
          = crawlLoop src enrich mp fuel (page + 1)
              (acc ++ enrich (src.extract (src.fetch page))))
    ∧ (∀ fuel : Nat, 2 ≤ fuel →
        crawlLoop srcScenario (fun recs => recs) 0 fuel 1 [] = some [10, 20]) := by
  refine ⟨fun _ _ _ _ _ _ _ _ _ _ _ _ => rfl,
    fun _ _ _ _ _ _ _ _ _ _ => rfl, ?_, ?_, ?_, ?_, ?_⟩
  · intro α src enrich mp fuel page acc h
    exact crawlLoop_fetch_empty src enrich mp fuel page acc h
  · intro α src enrich mp fuel page acc hf he
    exact crawlLoop_extract_empty src enrich mp fuel page acc hf he
  · intro α src enrich mp fuel page acc hf he hmp hpg
    rw [crawlLoop_productive src enrich mp fuel page acc hf he,
      if_pos ⟨by omega, hmp, hpg⟩]
  · intro α src enrich mp fuel page acc hf he hneg
    rw [crawlLoop_productive src enrich mp fuel page acc hf he,
      if_neg (fun hc => hneg ⟨hc.2.1, hc.2.2⟩)]
  · intro fuel hfuel
    obtain ⟨k, rfl⟩ : ∃ k, fuel = k + 2 := ⟨fuel - 2, by omega⟩
    rw [show k + 2 = (k + 1) + 1 from rfl,
      crawlLoop_productive srcScenario (fun recs => recs) 0 (k + 1) 1 []
        (by decide) (by decide),
      if_neg (by decide)]
    show crawlLoop srcScenario (fun recs => recs) 0 (k + 1) 2 [10, 20]
      = some [10, 20]
    exact crawlLoop_extract_empty srcScenario (fun recs => recs) 0 k 2 [10, 20]
      (by decide) (by decide)

/-- Witness for C1: a source whose page-1 fetch fails stops at once keeping
the prior accumulation, and the two-page scenario crawl with `max_pages = 0`
returns exactly page 1's records with fuel 2. -/
theorem C1_crawl_pagination_witness :
    crawlLoop { fetch := fun _ => [], extract := fun _ => ([] : List Nat) }
        (fun recs => recs) 0 1 1 [5] = some [5]
    ∧ crawlLoop srcScenario (fun recs => recs) 0 2 1 [] = some [10, 20] := by
  constructor
  · exact C1_crawl_pagination.2.2.1 Nat
      { fetch := fun _ => [], extract := fun _ => [] } (fun recs => recs)
      0 0 1 [5] rfl
  · exact C1_crawl_pagination.2.2.2.2.2.2 2 (by omega)

/-- **C2.** For every retry configuration with `retries = r` and every
transport behaviour, `fetch_page` makes at most `r + 1` transport attempts;
the delay slept before retry `i` (0-indexed) is exactly
`backoff_factor * 2 ^ i`; if some attempt within the first `r + 1` succeeds
(all earlier ones failing), its response body is returned; and if all
`r + 1` attempts raise, `fetch_page` returns the empty-string sentinel (it
never propagates the exception — the model is total).  In particular a
transport failing the first 2 attempts then succeeding, with `retries = 3`,
returns the success body after 3 attempts with total slept delay
`backoff_factor * (1 + 2)`. -/
theorem C2_fetch_page_retry :
    (∀ (transport : Nat → Option PyStr) (r : Nat) (bf : ℚ),
      (fetch_page transport r bf).attempts ≤ r + 1)
    ∧ (∀ (transport : Nat → Option PyStr) (r : Nat) (bf : ℚ) (i : Nat)
        (x : ℚ), (fetch_page transport r bf).delays[i]? = some x →
        x = bf * 2 ^ i)
    ∧ (∀ (transport : Nat → Option PyStr) (r : Nat) (bf : ℚ) (i : Nat)
        (b : PyStr), i ≤ r → (∀ j, j < i → transport j = none) →
        transport i = some b → (fetch_page transport r bf).body = b)
    ∧ (∀ (transport : Nat → Option PyStr) (r : Nat) (bf : ℚ),
        (∀ j, j ≤ r → transport j = none) →
        (fetch_page transport r bf).body = []
        ∧ (fetch_page transport r bf).attempts = r + 1)
    ∧ ∀ (bf : ℚ),
        fetch_page (fun i => if i < 2 then none else some "ok".toList) 3 bf
          = { body := "ok".toList, delays := [bf * 2 ^ 0, bf * 2 ^ 1],
              attempts := 3 }
        ∧ (fetch_page (fun i => if i < 2 then none else some "ok".toList)
            3 bf).delays.sum = bf * (1 + 2) := by
  refine ⟨?_, ?_, ?_, ?_, ?_⟩
  · intro transport r bf
    exact fetchLoop_attempts_le transport bf r 0
  · intro transport r bf i x h
    simpa using fetchLoop_delay_formula transport bf r 0 i x h
  · intro transport r bf i b hir hfail hsucc
    exact fetchLoop_success transport bf r 0 i b (Nat.zero_le i) (by omega)
      (fun j _ hj => hfail j hj) hsucc
  · intro transport r bf hfail
    exact fetchLoop_exhaust transport bf r 0 (fun j _ hj => hfail j (by omega))
  · intro bf
    constructor
    · rfl
    · show (fetchLoop _ bf 0 3).delays.sum = _
      simp only [fetchLoop]
      norm_num
      ring

/-- Witness for C2: concrete instantiation — a transport failing only on
attempt 0, with `retries = 3` and `backoff_factor = 1`, returns the body of
attempt 1, and an always-failing transport with `retries = 2` returns the
sentinel after 3 attempts. -/
theorem C2_fetch_page_retry_witness :
    (fetch_page (fun i => if i = 0 then none else some ['x']) 3 (1 : ℚ)).body
      = ['x']
    ∧ (fetch_page (fun _ => none) 2 (1 : ℚ)).body = []
    ∧ (fetch_page (fun _ => none) 2 (1 : ℚ)).attempts = 3 := by
  refine ⟨?_, ?_, ?_⟩
  · exact C2_fetch_page_retry.2.2.1 (fun i => if i = 0 then none else some ['x'])
      3 1 1 ['x'] (by omega)
      (fun j hj => by
        have : j = 0 := by omega
        subst this
        rfl)
      rfl
  · exact (C2_fetch_page_retry.2.2.2.1 (fun _ => none) 2 1
      (fun j _ => rfl)).1
  · exact (C2_fetch_page_retry.2.2.2.1 (fun _ => none) 2 1
      (fun j _ => rfl)).2

/-- **C3.** In company mode with details enabled the pass maps
`attach_details` over the page's summaries: a summary with no `details_url`
is left untouched; one with a (non-empty) `details_url` has that URL fetched
and, on a non-empty result, the parsed details attached under `details`; on
an empty fetch result the summary is unchanged — its `details` key stays
absent — and, since the pass is an element-wise map, one failure never
removes a summary or disturbs the other summaries' fetches; the crawl's
continue/stop decision is independent of every detail-fetch outcome. -/
theorem C3_detail_fetch_isolation :
    ∀ (fetchUrl : PyStr → PyStr)
      (pd : PyStr → Option PyStr → CompanyDetails),
      (∀ c : CompanySummary, c.details_url = none →
        attach_details fetchUrl pd c = c)
      ∧ (∀ (c : CompanySummary) (url : PyStr), c.details_url = some url →
          url ≠ [] → fetchUrl url ≠ [] →
          attach_details fetchUrl pd c
            = { c with details := some (pd (fetchUrl url) c.company_id) })
      ∧ (∀ (c : CompanySummary) (url : PyStr), c.details_url = some url →
          fetchUrl url = [] → attach_details fetchUrl pd c = c)
      ∧ (∀ (c : CompanySummary) (url : PyStr), c.details = none →
          c.details_url = some url → fetchUrl url = [] →
          (attach_details fetchUrl pd c).details = none)
      ∧ (∀ l : List CompanySummary,
          enrich_page fetchUrl pd true l = l.map (attach_details fetchUrl pd)
          ∧ (enrich_page fetchUrl pd true l).length = l.length)
      ∧ (∀ (src : PageSource CompanySummary) (mp : Int) (fuel page : Nat)
          (acc : List CompanySummary),
          src.fetch page ≠ [] → src.extract (src.fetch page) ≠ [] →
          ¬(0 < mp ∧ mp ≤ (page : Int)) →
          crawlLoop src (enrich_page fetchUrl pd true) mp (fuel + 1) page acc
            = crawlLoop src (enrich_page fetchUrl pd true) mp fuel (page + 1)
                (acc ++ enrich_page fetchUrl pd true
                  (src.extract (src.fetch page)))) := by
  intro fetchUrl pd
  refine ⟨?_, ?_, ?_, ?_, ?_, ?_⟩
  · intro c h
    simp [attach_details, h]
  · intro c url hurl hne hfetch
    simp [attach_details, hurl, hne, hfetch]
  · intro c url hurl hfetch
    by_cases hne : url = []
    · simp [attach_details, hurl, hne]
    · simp [attach_details, hurl, hne, hfetch]
  · intro c url hdet hurl hfetch
    by_cases hne : url = []
    · simp [attach_details, hurl, hne, hdet]
    · simp [attach_details, hurl, hne, hfetch, hdet]
  · intro l
    exact ⟨rfl, by simp [enrich_page]⟩
  · intro src mp fuel page acc hf he hneg
    rw [crawlLoop_productive src (enrich_page fetchUrl pd true) mp fuel page
      acc hf he, if_neg (fun hc => hneg ⟨hc.2.1, hc.2.2⟩)]

/-- Witness for C3: with a transport whose every detail fetch returns the
sentinel, `summaryA` (which has a details URL) passes through unchanged and
its `details` key stays absent. -/
theorem C3_detail_fetch_isolation_witness :
    attach_details (fun _ => [])
        (fun _h cid => parse_company_details emptyDetailPage cid) summaryA
      = summaryA
    ∧ (attach_details (fun _ => [])
        (fun _h cid => parse_company_details emptyDetailPage cid)
        summaryA).details = none := by
  constructor
  · exact (C3_detail_fetch_isolation (fun _ => [])
      (fun _h cid => parse_company_details emptyDetailPage cid)).2.2.1
      summaryA "https://www.wlw.de/firmen/acme-gmbh-4711".toList rfl rfl
  · exact (C3_detail_fetch_isolation (fun _ => [])
      (fun _h cid => parse_company_details emptyDetailPage cid)).2.2.2.1
      summaryA "https://www.wlw.de/firmen/acme-gmbh-4711".toList rfl rfl rfl

/-- **C10.** The detail pass is frame-bounded to the `details` key: for every
summary, all twelve other keys keep exactly the values `parse_company_list`
produced, and the pass (an element-wise map) keeps every summary — with or
without a `details_url`, successful fetch or not — at its original position;
with details disabled the page is untouched. -/
theorem C10_details_frame :
    ∀ (fetchUrl : PyStr → PyStr)
      (pd : PyStr → Option PyStr → CompanyDetails),
      (∀ c : CompanySummary,
        attach_details fetchUrl pd c
          = { c with details := (attach_details fetchUrl pd c).details }
        ∧ (attach_details fetchUrl pd c).company_id = c.company_id
        ∧ (attach_details fetchUrl pd c).name = c.name
        ∧ (attach_details fetchUrl pd c).email = c.email
        ∧ (attach_details fetchUrl pd c).phone_number = c.phone_number
        ∧ (attach_details fetchUrl pd c).homepage = c.homepage
        ∧ (attach_details fetchUrl pd c).address = c.address
        ∧ (attach_details fetchUrl pd c).employee_count = c.employee_count
        ∧ (attach_details fetchUrl pd c).founding_year = c.founding_year
        ∧ (attach_details fetchUrl pd c).description = c.description
        ∧ (attach_details fetchUrl pd c).region = c.region
        ∧ (attach_details fetchUrl pd c).logo_url = c.logo_url
        ∧ (attach_details fetchUrl pd c).details_url = c.details_url)
      ∧ (∀ (l : List CompanySummary),
          (enrich_page fetchUrl pd true l).length = l.length
          ∧ ∀ i : Nat, (enrich_page fetchUrl pd true l)[i]?
              = (l[i]?).map (attach_details fetchUrl pd))
      ∧ (∀ l : List CompanySummary, enrich_page fetchUrl pd false l = l) := by
  intro fetchUrl pd
  have key : ∀ c : CompanySummary, attach_details fetchUrl pd c
      = { c with details := (attach_details fetchUrl pd c).details } := by
    intro c
    cases hurl : c.details_url with
    | none =>
      have h1 : attach_details fetchUrl pd c = c := by
        simp [attach_details, hurl]
      rw [h1, ← hurl]
    | some url =>
      by_cases hu : url = []
      · have h1 : attach_details fetchUrl pd c = c := by
          simp [attach_details, hurl, hu]
        rw [h1, ← hurl]
      · by_cases hf : fetchUrl url = []
        · have h1 : attach_details fetchUrl pd c = c := by
            simp [attach_details, hurl, hu, hf]
          rw [h1, ← hurl]
        · have h1 : attach_details fetchUrl pd c
              = { c with details := some (pd (fetchUrl url) c.company_id) } := by
            simp [attach_details, hurl, hu, hf]
          rw [h1, ← hurl]
  refine ⟨?_, ?_, fun l => rfl⟩
  · intro c
    refine ⟨key c, ?_, ?_, ?_, ?_, ?_, ?_, ?_, ?_, ?_, ?_, ?_, ?_⟩ <;>
      · rw [key c]
  · intro l
    refine ⟨by simp [enrich_page], fun i => ?_⟩
    simp [enrich_page]

/-- **C5.** `company_id` priority: a truthy data attribute on the card wins
(`data-id` before `data-company-id`); otherwise, when a details link with an
href exists, a truthy `data-id` on that link wins; otherwise the id is the
last dash-delimited token of the link's href after trimming slashes.  In
particular a card with no data attributes whose link href is
`/firmen/acme-gmbh-4711` yields `"4711"`. -/
theorem C5_company_id_priority :
    (∀ (uj : PyStr → PyStr → PyStr) (base_url : PyStr) (card : Card),
      truthy (pyOr card.dataId card.dataCompanyId) = true →
      (parseCard uj base_url card).company_id
        = pyOr card.dataId card.dataCompanyId)
    ∧ (∀ (uj : PyStr → PyStr → PyStr) (base_url : PyStr) (card : Card)
        (link : LinkEl) (href : PyStr),
        truthy (pyOr card.dataId card.dataCompanyId) = false →
        card.link = some link → link.href = some href →
        truthy link.dataId = true →
        (parseCard uj base_url card).company_id = link.dataId)
    ∧ (∀ (uj : PyStr → PyStr → PyStr) (base_url : PyStr) (card : Card)
        (link : LinkEl) (href : PyStr),
        truthy (pyOr card.dataId card.dataCompanyId) = false →
        card.link = some link → link.href = some href →
        truthy link.dataId = false →
        (parseCard uj base_url card).company_id
          = some (lastDashToken href))
    ∧ lastDashToken "/firmen/acme-gmbh-4711".toList = "4711".toList
    ∧ (parseCard ujConcat "https://www.wlw.de".toList cardAcme).company_id
        = some "4711".toList := by
  refine ⟨?_, ?_, ?_, by decide, by decide⟩
  · intro uj base_url card h
    cases hl : card.link with
    | none => simp [parseCard, hl]
    | some link =>
      cases hh : link.href with
      | none => simp [parseCard, hl, hh]
      | some href => simp [parseCard, hl, hh, h]
  · intro uj base_url card link href h hl hh hld
    simp only [parseCard, hl, hh]
    rw [if_neg (by simp [h])]
    simp [pyOr, hld]
  · intro uj base_url card link href h hl hh hld
    simp only [parseCard, hl, hh]
    rw [if_neg (by simp [h])]
    simp [pyOr, hld]

/-- Witness for C5: concrete cards exercising all three priority levels —
data attribute on the card, data attribute on the link, and the
dash-token fallback. -/
theorem C5_company_id_priority_witness :
    (parseCard ujConcat "https://www.wlw.de".toList
        { emptyCard with dataId := some "77".toList }).company_id
      = some "77".toList
    ∧ (parseCard ujConcat "https://www.wlw.de".toList
        { emptyCard with
          link := some { href := some "/firmen/acme-gmbh-4711".toList,
                         dataId := some "88".toList } }).company_id
      = some "88".toList
    ∧ (parseCard ujConcat "https://www.wlw.de".toList cardAcme).company_id
      = some "4711".toList := by
  refine ⟨?_, ?_, ?_⟩
  · exact C5_company_id_priority.1 ujConcat "https://www.wlw.de".toList
      { emptyCard with dataId := some "77".toList } (by decide)
  · exact C5_company_id_priority.2.1 ujConcat "https://www.wlw.de".toList
      { emptyCard with
        link := some { href := some "/firmen/acme-gmbh-4711".toList,
                       dataId := some "88".toList } }
      { href := some "/firmen/acme-gmbh-4711".toList,
        dataId := some "88".toList }
      "/firmen/acme-gmbh-4711".toList (by decide) rfl rfl (by decide)
  · exact C5_company_id_priority.2.2.1 ujConcat "https://www.wlw.de".toList
      cardAcme { href := some "/firmen/acme-gmbh-4711".toList, dataId := none }
      "/firmen/acme-gmbh-4711".toList (by decide) rfl rfl (by decide)

/-- **C6.** Contact name splitting in `parse_company_details`: a name with
two or more whitespace tokens yields `first_name` = first token and
`last_name` = the remaining tokens joined with single spaces; a (normalized,
as every `_extract_text` result is) single-token name yields `first_name` =
that token with `last_name` absent.  "Jane Doe Smith" → ("Jane",
"Doe Smith"); "Cher" → ("Cher", absent).  The last two conjuncts tie the
split to the contacts loop of `parse_company_details`. -/
theorem C6_contact_name_split :
    (∀ (full_name t : PyStr) (ts : List PyStr),
      splitWs full_name = t :: ts → ts ≠ [] →
      splitContactName full_name = (some t, some (joinWith [' '] ts)))
    ∧ (∀ (full_name t : PyStr),
        normalize_whitespace full_name = full_name →
        splitWs full_name = [t] →
        splitContactName full_name = (some t, none))
    ∧ splitContactName "Jane Doe Smith".toList
        = (some "Jane".toList, some "Doe Smith".toList)
    ∧ splitContactName "Cher".toList = (some "Cher".toList, none)
    ∧ (∀ (page : DetailPage) (cid : Option PyStr),
        (parse_company_details page cid).contacts
          = page.contactBlocks.map parseContactBlock)
    ∧ (∀ block : ContactBlock,
        (parseContactBlock block).first_name
            = (splitContactName (extract_text block.nameText)).1
        ∧ (parseContactBlock block).last_name
            = (splitContactName (extract_text block.nameText)).2) := by
  refine ⟨?_, ?_, by decide, by decide, fun page cid => rfl,
    fun block => ⟨rfl, rfl⟩⟩
  · intro fn t ts hsp hts
    have hfn : fn ≠ [] := by
      intro h
      rw [h] at hsp
      simp [splitWs, splitPred] at hsp
    have hlen : 2 ≤ (t :: ts).length := by
      cases ts with
      | nil => exact absurd rfl hts
      | cons a as => simp
    simp only [splitContactName, if_neg hfn, hsp]
    rw [if_pos hlen]
    simp
  · intro fn t hnorm hsp
    have hfn : fn ≠ [] := by
      intro h
      rw [h] at hsp
      simp [splitWs, splitPred] at hsp
    have hft : fn = t := by
      rw [normalize_whitespace, if_neg hfn, hsp] at hnorm
      exact (by simpa [joinWith, List.intercalate] using hnorm :
        t = fn).symm
    have hlen : ¬ 2 ≤ (splitWs fn).length := by
      rw [hsp]
      simp
    simp only [splitContactName, if_neg hfn, if_neg hlen]
    rw [hft]

/-- Witness for C6: the theorem applied to the two example names. -/
theorem C6_contact_name_split_witness :
    splitContactName "Jane Doe Smith".toList
      = (some "Jane".toList, some "Doe Smith".toList)
    ∧ splitContactName "Cher".toList = (some "Cher".toList, none) := by
  constructor
  · exact C6_contact_name_split.1 "Jane Doe Smith".toList "Jane".toList
      ["Doe".toList, "Smith".toList] (by decide) (by decide)
  · exact C6_contact_name_split.2.1 "Cher".toList "Cher".toList (by decide)
      (by decide)

/-- **C4 counterexample.** The claim's reading — comma-split into trimmed
parts with no removal of empty parts (`addressClaimLiteral`) — disagrees
with the code on `"S,,12345 B"`: the code drops the empty middle part and
yields postal_code `"12345"`, city `"B"`, no country_code, while the
claim's positional indexing predicts no postal_code, no city, and
country_code `"B"`. -/
theorem C4_address_heuristic_counterexample :
    (parseAddressHeuristic "S,,12345 B".toList).postal_code
        = some "12345".toList
    ∧ (parseAddressHeuristic "S,,12345 B".toList).city = some "B".toList
    ∧ (parseAddressHeuristic "S,,12345 B".toList).country_code = none
    ∧ (addressClaimLiteral "S,,12345 B".toList).postal_code = none
    ∧ (addressClaimLiteral "S,,12345 B".toList).city = none
    ∧ (addressClaimLiteral "S,,12345 B".toList).country_code
        = some "B".toList := by
  decide

/-- **C4 (amended).** For every non-empty address full-text the breakdown is
positional over the comma-split, trimmed parts **with parts that are empty
after trimming dropped**: parts[0] → street; with ≥ 2 remaining parts,
part[1]'s first whitespace token → postal_code and the remaining tokens
joined → city (absent when empty); with ≥ 3 remaining parts, the last
whitespace token of the last part, uppercased → country_code (and such a
token always exists — no input raises); with < 2 / < 3 parts the respective
fields stay absent; `full` carries the input.  "Hauptstr. 1, 12345 Berlin,
Germany" yields exactly the claimed breakdown. -/
theorem C4_address_heuristic_amended :
    (∀ s : PyStr, s ≠ [] →
      (parseAddressHeuristic s).full = some s
      ∧ (parseAddressHeuristic s).street = (addressParts s).head?
      ∧ ((addressParts s).length ≤ 1 →
          (parseAddressHeuristic s).postal_code = none
          ∧ (parseAddressHeuristic s).city = none)
      ∧ (2 ≤ (addressParts s).length →
          (parseAddressHeuristic s).postal_code
              = (splitWs ((addressParts s).getD 1 [])).head?
          ∧ (parseAddressHeuristic s).city
              = noneIfEmpty (joinWith [' ']
                  ((splitWs ((addressParts s).getD 1 [])).drop 1)))
      ∧ ((addressParts s).length < 3 →
          (parseAddressHeuristic s).country_code = none)
      ∧ (3 ≤ (addressParts s).length →
          (parseAddressHeuristic s).country_code
              = (splitWs ((addressParts s).getLast?.getD
                  [])).getLast?.map pyUpper
          ∧ ∃ cc, (parseAddressHeuristic s).country_code = some cc))
    ∧ parseAddressHeuristic []
        = { street := none, postal_code := none, city := none,
            country_code := none, full := none }
    ∧ parseAddressHeuristic "Hauptstr. 1, 12345 Berlin, Germany".toList
        = { street := some "Hauptstr. 1".toList,
            postal_code := some "12345".toList,
            city := some "Berlin".toList,
            country_code := some "GERMANY".toList,
            full := some "Hauptstr. 1, 12345 Berlin, Germany".toList } := by
  refine ⟨?_, by decide, by decide⟩
  intro s hs
  refine ⟨?_, ?_, ?_, ?_, ?_, ?_⟩
  · simp [parseAddressHeuristic, hs]
  · simp [parseAddressHeuristic, hs]
  · intro hlen
    constructor <;>
      · simp only [parseAddressHeuristic, if_neg hs]
        rw [if_neg (by omega)]
  · intro hlen
    constructor
    · simp only [parseAddressHeuristic, if_neg hs]
      rw [if_pos hlen]
      cases hsp : splitWs ((addressParts s).getD 1 []) with
      | nil => simp [hsp]
      | cons t rest => simp [hsp]
    · simp only [parseAddressHeuristic, if_neg hs]
      rw [if_pos hlen]
      cases hsp : splitWs ((addressParts s).getD 1 []) with
      | nil => simp [hsp, noneIfEmpty, joinWith, List.intercalate]
      | cons t rest => simp [hsp]
  · intro hlen
    simp only [parseAddressHeuristic, if_neg hs]
    rw [if_neg (by omega)]
  · intro hlen
    have hform : (parseAddressHeuristic s).country_code
        = (splitWs ((addressParts s).getLast?.getD [])).getLast?.map
            pyUpper := by
      simp only [parseAddressHeuristic, if_neg hs]
      rw [if_pos hlen]
    refine ⟨hform, ?_⟩
    have hne : addressParts s ≠ [] := by
      intro h
      rw [h] at hlen
      simp at hlen
    obtain ⟨last, hlast⟩ := getLast?_of_ne_nil (addressParts s) hne
    have hmem : last ∈ addressParts s := List.mem_of_mem_getLast? hlast
    have hsw : splitWs last ≠ [] := addressParts_splitWs_ne_nil s last hmem
    obtain ⟨y, hy⟩ := getLast?_of_ne_nil (splitWs last) hsw
    refine ⟨pyUpper y, ?_⟩
    rw [hform, hlast]
    simp [hy]

/-- Witness for C4 (amended): the amended theorem applied to the spec's
example address. -/
theorem C4_address_heuristic_amended_witness :
    (parseAddressHeuristic "Hauptstr. 1, 12345 Berlin, Germany".toList).street
        = (addressParts "Hauptstr. 1, 12345 Berlin, Germany".toList).head?
    ∧ ∃ cc, (parseAddressHeuristic
        "Hauptstr. 1, 12345 Berlin, Germany".toList).country_code
          = some cc := by
  constructor
  · exact (C4_address_heuristic_amended.1
      "Hauptstr. 1, 12345 Berlin, Germany".toList (by decide)).2.1
  · exact ((C4_address_heuristic_amended.1
      "Hauptstr. 1, 12345 Berlin, Germany".toList (by decide)).2.2.2.2.2
      (by decide)).2

/-- **C7 counterexample.** Not every empty extracted string becomes absent at
the summary level: for a card with no matching sub-elements the summary's
address sub-object keeps `full = ""` (the empty string, not absent), because
line 105 of src/extractors/company_parser.py builds
`CompanyAddress(full=address_full)` without an `or None`; a matched `<img>`
with an empty `src` is kept verbatim as `logo_url = ""` (line 117); and
`company_id` is stored without an `or None` (line 120), so a
present-but-empty `data-company-id` with no link, or a link href `"/"` whose
dash-token derivation gives `""`, both leave `company_id = ""` in the
record. -/
theorem C7_empty_normalization_counterexample :
    (parseCard ujConcat "https://www.wlw.de".toList emptyCard).address
        = some { street := none, postal_code := none, city := none,
                 country_code := none, full := some [] }
    ∧ ¬ ((parseCard ujConcat "https://www.wlw.de".toList
          emptyCard).address.map CompanyAddress.full = some none)
    ∧ (parseCard ujConcat "https://www.wlw.de".toList
        { emptyCard with logoSrc := some [] }).logo_url = some []
    ∧ (parseCard ujConcat "https://www.wlw.de".toList
        { emptyCard with dataCompanyId := some [] }).company_id = some []
    ∧ (parseCard ujConcat "https://www.wlw.de".toList
        { emptyCard with
          link := some { href := some "/".toList,
                         dataId := none } }).company_id = some [] := by
  decide

/-- **C7 (amended).** Selector misses never raise (the model is total).  The
normalized-text fields — `name`, `email`, `phone_number`, `homepage`,
`description` — are absent whenever no candidate matched **and** whenever the
extracted string is empty.  The remaining fields are **not**
empty-normalized: the address sub-object's `full` is always present (the
empty string when nothing matched); `logo_url` keeps the `src` attribute
verbatim (absent only when no `<img>` matched); `employee_count` is exactly
the normalized found text (absent only when no marker node exists); and
`company_id` keeps the attribute / dash-token value verbatim — a
present-but-empty data attribute or an empty derived token leaves
`company_id = ""` (`details_url` is absent exactly when no link with an
href exists). -/
theorem C7_empty_normalization_amended :
    ∀ (uj : PyStr → PyStr → PyStr) (base_url : PyStr) (card : Card),
      (card.nameText = none → (parseCard uj base_url card).name = none)
      ∧ (∀ t, card.nameText = some t → normalize_whitespace t = [] →
          (parseCard uj base_url card).name = none)
      ∧ (card.emailHref = none → (parseCard uj base_url card).email = none)
      ∧ (∀ h, card.emailHref = some h →
          pyStrip (pyReplace "mailto:".toList [] h) = [] →
          (parseCard uj base_url card).email = none)
      ∧ (card.telHref = none →
          (parseCard uj base_url card).phone_number = none)
      ∧ (∀ h, card.telHref = some h →
          pyStrip (pyReplace "tel:".toList [] h) = [] →
          (parseCard uj base_url card).phone_number = none)
      ∧ (card.httpHref = none → (parseCard uj base_url card).homepage = none)
      ∧ (∀ h, card.httpHref = some h → pyStrip h = [] →
          (parseCard uj base_url card).homepage = none)
      ∧ (card.descriptionText = none →
          (parseCard uj base_url card).description = none)
      ∧ (∀ t, card.descriptionText = some t → normalize_whitespace t = [] →
          (parseCard uj base_url card).description = none)
      ∧ (parseCard uj base_url card).employee_count
          = card.employeeText.map normalize_whitespace
      ∧ (parseCard uj base_url card).logo_url = card.logoSrc
      ∧ (card.link = none →
          (parseCard uj base_url card).details_url = none
          ∧ (parseCard uj base_url card).company_id
              = pyOr card.dataId card.dataCompanyId)
      ∧ (∀ (link : LinkEl) (href : PyStr), card.link = some link →
          link.href = some href →
          truthy (pyOr card.dataId card.dataCompanyId) = false →
          (parseCard uj base_url card).company_id
            = pyOr link.dataId (some (lastDashToken href)))
      ∧ (parseCard uj base_url card).address
          = some { street := none, postal_code := none, city := none,
                   country_code := none,
                   full := some (extract_text card.addressText) }
      ∧ (parseCard uj base_url card).founding_year = none
      ∧ (parseCard uj base_url card).region = none := by
  intro uj base_url card
  refine ⟨?_, ?_, ?_, ?_, ?_, ?_, ?_, ?_, ?_, ?_, ?_, ?_, ?_, ?_, ?_, ?_, ?_⟩
  · intro h
    simp [parseCard, h, extract_text, noneIfEmpty]
  · intro t ht hn
    simp [parseCard, ht, extract_text, hn, noneIfEmpty]
  · intro h
    simp [parseCard, h, noneIfEmpty]
  · intro h hh hstrip
    have hstrip2 : pyStrip (pyReplace ['m', 'a', 'i', 'l', 't', 'o', ':'] [] h)
        = [] := hstrip
    simp [parseCard, hh, hstrip2, noneIfEmpty]
  · intro h
    simp [parseCard, h, noneIfEmpty]
  · intro h hh hstrip
    have hstrip2 : pyStrip (pyReplace ['t', 'e', 'l', ':'] [] h) = [] := hstrip
    simp [parseCard, hh, hstrip2, noneIfEmpty]
  · intro h
    simp [parseCard, h, noneIfEmpty]
  · intro h hh hstrip
    simp [parseCard, hh, hstrip, noneIfEmpty]
  · intro h
    simp [parseCard, h, extract_text, noneIfEmpty]
  · intro t ht hn
    simp [parseCard, ht, extract_text, hn, noneIfEmpty]
  · simp [parseCard]
  · simp [parseCard]
  · intro h
    exact ⟨by simp [parseCard, h], by simp [parseCard, h]⟩
  · intro link href hl hh hcid
    simp only [parseCard, hl, hh]
    rw [if_neg (by simp [hcid])]
  · simp [parseCard]
  · simp [parseCard]
  · simp [parseCard]

/-- Witness for C7 (amended): the amended normalization applied to the
all-miss card, and the verbatim `company_id` behaviour applied to a card
whose only data attribute is a present-but-empty `data-company-id`. -/
theorem C7_empty_normalization_amended_witness :
    (parseCard ujConcat "https://www.wlw.de".toList emptyCard).name = none
    ∧ (parseCard ujConcat "https://www.wlw.de".toList emptyCard).email = none
    ∧ (parseCard ujConcat "https://www.wlw.de".toList
        emptyCard).details_url = none
    ∧ (parseCard ujConcat "https://www.wlw.de".toList
        { emptyCard with dataCompanyId := some [] }).company_id = some [] := by
  refine ⟨?_, ?_, ?_, ?_⟩
  · exact (C7_empty_normalization_amended ujConcat
      "https://www.wlw.de".toList emptyCard).1 rfl
  · exact (C7_empty_normalization_amended ujConcat
      "https://www.wlw.de".toList emptyCard).2.2.1 rfl
  · exact ((C7_empty_normalization_amended ujConcat
      "https://www.wlw.de".toList
      emptyCard).2.2.2.2.2.2.2.2.2.2.2.2.1 rfl).1
  · exact (((C7_empty_normalization_amended ujConcat
      "https://www.wlw.de".toList
      { emptyCard with dataCompanyId := some [] }).2.2.2.2.2.2.2.2.2.2.2.2.1
      rfl).2).trans (by decide)

/-- **C8.** `build_search_url` is pure and deterministic — for every choice of
the `urljoin`/`urlencode` externals it equals, input for input, the function
written from the spec's words: mode `"company"` maps to path segment
`"firmen"` and every other mode to `"produkte"`, language `"de"` to `"de"`
and every other language to `"en"`, the path is `/{lang}/{modeSegment}/`
joined with the base URL, and the query string is the encoding of
`{q: query, page: page, country: region}`.  In particular, with mode
`"product"` and language `"fr"` the produced URL uses segments
`"produkte"` and `"en"`. -/
theorem C8_build_search_url :
    (∀ uj ue base_url query mode region language page,
      build_search_url uj ue base_url query mode region language page
        = buildSearchUrlSpec uj ue base_url query mode region language page)
    ∧ build_search_url ujConcat ueSimple "https://www.wlw.de".toList
        "pumps".toList "product".toList "DE".toList "fr".toList 2
      = "https://www.wlw.de/en/produkte/?q=pumps&page=2&country=DE".toList := by
  constructor
  · intro uj ue base_url query mode region language page
    have h1 : "/".toList = ['/'] := rfl
    have h2 : "?".toList = ['?'] := rfl
    simp only [build_search_url, buildSearchUrlSpec, h1, h2,
      List.singleton_append, List.append_assoc, List.cons_append,
      List.nil_append]
  · rfl

/-- **C9.** For every finite sequence of records, the export payload has
`meta.record_count` equal to the length of `data`, `data` exactly the input
records in order, and `meta.exported_at` the clock's ISO string with a final
`"Z"` appended (so it ends in `'Z'`).  In particular exporting 3 records
yields `record_count = 3` and `data` of length 3. -/
theorem C9_export_payload :
    (∀ (α : Type) (now_iso : PyStr) (records : List α),
      (export_payload now_iso records).meta.record_count = records.length
      ∧ (export_payload now_iso records).data = records
      ∧ (export_payload now_iso records).meta.exported_at
          = now_iso ++ ['Z'])
    ∧ (export_payload "2026-10-12T00:00:00".toList
        ["a".toList, "b".toList, "c".toList]).meta.record_count = 3
    ∧ (export_payload "2026-10-12T00:00:00".toList
        ["a".toList, "b".toList, "c".toList]).data.length = 3 := by
  exact ⟨fun α now records => ⟨rfl, rfl, rfl⟩, rfl, rfl⟩
